import Mathlib

/-!
Verification of the Agentic-Core coordination kernel: the publish/subscribe
event bus (`Core-Agents/Base/event_bus.py`), the agent lifecycle and dispatch
contract (`Core-Agents/Base/base_agent.py`), and the agent factory
(`Core-Agents/Base/agent_factory.py`).

The embedding is shallow: Python dictionaries keyed by topic become
association lists (insertion-ordered, unique keys, exactly the observable
behaviour of a Python `dict`), callbacks become an abstract type `κ` given
meaning by a semantics function `run : κ → Envelope μ → σ → Except ε σ`
over an external world state `σ` (an `Except.error` models an uncaught
Python exception), and each operation additionally returns a trace of the
callbacks / hooks it invoked, in invocation order.
-/

namespace AgenticCore

/-- The message record built by `EventBus.publish` (`event_bus.py` lines
22-27): timestamp, topic, source and payload. The timestamp is supplied by
the caller of the model (it stands for `datetime.now().isoformat()`). -/
structure Envelope (μ : Type) where
  timestamp : Nat
  topic : String
  source : String
  message : μ
  deriving Repr, DecidableEq

/-- State of an `EventBus` (`event_bus.py` lines 15-18): the topic-keyed
subscriber registry `self.subscribers` (a Python dict, modelled as an
insertion-ordered association list with unique keys) and the append-only
`self.message_history`. -/
structure EventBus (μ κ : Type) where
  subscribers : List (String × List κ)
  message_history : List (Envelope μ)
  deriving Repr

variable {μ κ ε σ : Type}

/-- Dict lookup: `self.subscribers[topic]` / `topic in self.subscribers`. -/
def findTopic : List (String × List κ) → String → Option (List κ)
  | [], _ => none
  | p :: rest, topic => if p.1 = topic then some p.2 else findTopic rest topic

/-- Dict update of an existing key: replaces the (unique) entry for `topic`. -/
def updateTopic : List (String × List κ) → String → List κ → List (String × List κ)
  | [], _, _ => []
  | p :: rest, topic, cbs =>
    if p.1 = topic then (p.1, cbs) :: rest else p :: updateTopic rest topic cbs

/-- The subscriber list registered for a topic (empty when the topic has no
entry in the registry). -/
def subsList (bus : EventBus μ κ) (topic : String) : List κ :=
  (findTopic bus.subscribers topic).getD []

/-- `EventBus.subscribe` (`event_bus.py` lines 40-47): lazily creates the
topic entry, appends the callback, returns `True`. -/
def EventBus.subscribe (bus : EventBus μ κ) (topic : String) (callback : κ) :
    EventBus μ κ × Bool :=
  match findTopic bus.subscribers topic with
  | none => ({ bus with subscribers := bus.subscribers ++ [(topic, [callback])] }, true)
  | some cbs => ({ bus with subscribers := updateTopic bus.subscribers topic (cbs ++ [callback]) }, true)

/-- Sequential delivery loop of `publish` (`event_bus.py` lines 35-36):
`for callback in self.subscribers[topic]: await callback(msg_data)`.
Each callback is run to completion on the world state produced by the
previous one; an uncaught exception (`Except.error`) aborts the loop and
propagates. Returns the delivery outcome and the trace of callbacks that
were actually invoked, in invocation order. -/
def deliverList (run : κ → Envelope μ → σ → Except ε σ) :
    List κ → Envelope μ → σ → Except ε σ × List κ
  | [], _, s => (Except.ok s, [])
  | c :: cs, env, s =>
    match run c env s with
    | Except.error e => (Except.error e, [c])
    | Except.ok s1 =>
      let r := deliverList run cs env s1
      (r.1, c :: r.2)

/-- Result of one `publish` call: the new bus state, the delivery outcome on
the world state (an `Except.error` is an exception that escaped the bus),
the callbacks invoked in order, and the envelope `publish` returns. -/
structure PublishResult (μ κ ε σ : Type) where
  bus : EventBus μ κ
  outcome : Except ε σ
  invoked : List κ
  envelope : Envelope μ
  deriving Repr

/-- `EventBus.publish` (`event_bus.py` lines 20-38): builds the envelope,
appends it to history, then — if the topic has an entry — sequentially
awaits every registered callback in subscription order. The bus performs no
error handling around callback invocation. -/
def publish (run : κ → Envelope μ → σ → Except ε σ) (bus : EventBus μ κ)
    (topic : String) (message : μ) (source : String) (timestamp : Nat) (s : σ) :
    PublishResult μ κ ε σ :=
  let env : Envelope μ := ⟨timestamp, topic, source, message⟩
  let bus1 : EventBus μ κ := { bus with message_history := bus.message_history ++ [env] }
  match findTopic bus.subscribers topic with
  | none => ⟨bus1, Except.ok s, [], env⟩
  | some cbs =>
    let r := deliverList run cbs env s
    ⟨bus1, r.1, r.2, env⟩

/-- Python list slice `l[start:]`, with Python's negative-index convention:
a negative `start` counts from the end (clamped at 0), a non-negative one
from the front. -/
def pySliceFrom (start : Int) (l : List α) : List α :=
  if start < 0 then l.drop ((l.length + start).toNat) else l.drop start.toNat

/-- `EventBus.get_history` (`event_bus.py` lines 49-54). The Python
parameter `topic: str = None` is an `Option String`; the guard `if topic:`
is Python truthiness, so both `None` and the empty string skip the filter.
The result is `history[-limit:]`. -/
def EventBus.get_history (bus : EventBus μ κ) (topic : Option String) (limit : Int) :
    List (Envelope μ) :=
  let history : List (Envelope μ) :=
    match topic with
    | none => bus.message_history
    | some t =>
      if t = "" then bus.message_history
      else bus.message_history.filter (fun m => m.topic == t)
  pySliceFrom (-limit) history

/-! ### Agent contract (`base_agent.py`) -/

/-- Dispatch events recorded by the `handle_message` wrapper: a call of the
agent's `process_message` hook, or of its `on_error` hook. -/
inductive DispatchEvent (μ ε : Type) where
  | processMsg (msg : Envelope μ)
  | errorHook (e : ε) (msg : Envelope μ)
  deriving Repr, DecidableEq

/-- `BaseAgent.handle_message` (`base_agent.py` lines 76-93): drops the
envelope when its `source` equals this agent's id, otherwise delegates to
`process_message`; an exception raised there is caught and routed to
`on_error` with the exception and the envelope. The hooks are parameters
(`pm`, `oe`) because they are abstract / overridable on `BaseAgent`.
Returns the outcome together with the trace of hook invocations. -/
def handle_message (agent_id : String)
    (pm : Envelope μ → σ → Except ε σ)
    (oe : ε → Envelope μ → σ → Except ε σ)
    (msg : Envelope μ) (s : σ) : Except ε σ × List (DispatchEvent μ ε) :=
  if msg.source = agent_id then (Except.ok s, [])
  else
    match pm msg s with
    | Except.ok s1 => (Except.ok s1, [DispatchEvent.processMsg msg])
    | Except.error e =>
      (oe e msg s, [DispatchEvent.processMsg msg, DispatchEvent.errorHook e msg])

/-- The agent-owned state of `BaseAgent.__init__` (`base_agent.py` lines
25-29): identifier, running flag, local subscription bookkeeping, start
time. -/
structure AgentRecord where
  agent_id : String
  is_running : Bool
  subscriptions : List String
  start_time : Option Nat
  deriving Repr, DecidableEq

/-- Lifecycle hook invocations recorded by `start` / `stop`. -/
inductive LifeEvent where
  | setupSubscriptions
  | onStart
  | onStop
  deriving Repr, DecidableEq

/-- `BaseAgent.start` (`base_agent.py` lines 33-48): warns and returns if
already running; otherwise sets `is_running`, records the start time, then
runs the `setup_subscriptions` and `on_start` hooks to completion, in that
order. The hooks (abstract on `BaseAgent`) may touch both the agent record
and the outside world `σ` (e.g. the bus), so they are parameters of type
`AgentRecord × σ → AgentRecord × σ`. -/
def start (setup on_start : AgentRecord × σ → AgentRecord × σ)
    (a : AgentRecord) (w : σ) (now : Nat) : (AgentRecord × σ) × List LifeEvent :=
  if a.is_running then ((a, w), [])
  else
    let r := on_start (setup ({ a with is_running := true, start_time := some now }, w))
    (r, [LifeEvent.setupSubscriptions, LifeEvent.onStart])

/-- `BaseAgent.stop` (`base_agent.py` lines 50-64): warns and returns if not
running; otherwise clears `is_running`, runs the `on_stop` hook, then clears
the local subscription bookkeeping. -/
def stop (on_stop : AgentRecord × σ → AgentRecord × σ)
    (a : AgentRecord) (w : σ) : (AgentRecord × σ) × List LifeEvent :=
  if a.is_running then
    let r := on_stop ({ a with is_running := false }, w)
    (({ r.1 with subscriptions := [] }, r.2), [LifeEvent.onStop])
  else ((a, w), [])

/-! ### Agent factory (`agent_factory.py`) -/

/-- One entry of a team configuration: the Python dict's optional `"type"`
and `"agent_id"` fields (`config.get("type")`, `config.get("agent_id", …)`). -/
structure AgentConfig where
  type? : Option String
  agent_id? : Option String
  deriving Repr, DecidableEq

/-- An instantiated agent, as far as the factory claims observe it: the
identifier it was constructed with and its registered type. -/
structure MadeAgent where
  agent_id : String
  agent_type : String
  deriving Repr, DecidableEq

/-- The `ValueError`s raised by `AgentFactory.create_agent` (line 89,
unknown type, message lists the available types) and by
`create_agent_team` (line 175, entry missing its `type` field, message
names the agent). -/
inductive FactoryError where
  | unknownType (agent_type : String) (available : List String)
  | missingType (agent_name : String)
  deriving Repr, DecidableEq

/-- The registry after `_register_core_agents` (`agent_factory.py` lines
30-37), in insertion order. -/
def coreRegistry : List String := ["architect", "codegen", "qa", "docs"]

/-- `AgentFactory.create_agent` (`agent_factory.py` lines 74-99): raises
`ValueError` naming the unknown type when it is not registered; otherwise
constructs the agent with id `config.get("agent_id", f"{agent_type}_agent")`. -/
def create_agent (registry : List String) (agent_type : String)
    (config : AgentConfig) : Except FactoryError MadeAgent :=
  if agent_type ∈ registry then
    Except.ok ⟨config.agent_id?.getD (agent_type ++ "_agent"), agent_type⟩
  else Except.error (FactoryError.unknownType agent_type registry)

/-- The `type` field as `create_agent_team` reads it: `config.get("type")`
followed by the truthiness test `if not agent_type:` — both an absent and an
empty `"type"` count as missing. -/
def getType (config : AgentConfig) : Option String :=
  match config.type? with
  | none => none
  | some t => if t = "" then none else some t

/-- `AgentFactory.create_agent_team` (`agent_factory.py` lines 159-179):
walks the team configuration in order; an entry without a usable `type`
raises the missing-type error, an unregistered type raises the
unknown-type error from `create_agent`; any raise aborts the whole call,
so a mapping is only returned when every entry succeeds. -/
def create_agent_team (registry : List String) :
    List (String × AgentConfig) → Except FactoryError (List (String × MadeAgent))
  | [] => Except.ok []
  | (name, config) :: rest =>
    match getType config with
    | none => Except.error (FactoryError.missingType name)
    | some t =>
      match create_agent registry t config with
      | Except.error e => Except.error e
      | Except.ok ag =>
        match create_agent_team registry rest with
        | Except.error e => Except.error e
        | Except.ok l => Except.ok ((name, ag) :: l)

/-! ### Helper lemmas about the registry and the delivery loop -/

theorem findTopic_updateTopic_ne (subs : List (String × List κ)) (topic t : String)
    (cbs : List κ) (h : t ≠ topic) :
    findTopic (updateTopic subs topic cbs) t = findTopic subs t := by
  induction subs with
  | nil => rfl
  | cons p rest ih =>
    by_cases hp : p.1 = topic
    · simp only [updateTopic, if_pos hp, findTopic]
      rw [if_neg (by rw [hp]; exact fun he => h he.symm), if_neg (by rw [hp]; exact fun he => h he.symm)]
    · simp only [updateTopic, if_neg hp, findTopic, ih]

theorem findTopic_updateTopic_eq (subs : List (String × List κ)) (topic : String)
    (cbs cbs0 : List κ) (h : findTopic subs topic = some cbs0) :
    findTopic (updateTopic subs topic cbs) topic = some cbs := by
  induction subs with
  | nil => simp [findTopic] at h
  | cons p rest ih =>
    by_cases hp : p.1 = topic
    · simp only [updateTopic, if_pos hp, findTopic, if_pos hp]
    · simp only [findTopic, if_neg hp] at h
      simp only [updateTopic, if_neg hp, findTopic, if_neg hp, ih h]

theorem findTopic_append (subs subs2 : List (String × List κ)) (t : String) :
    findTopic (subs ++ subs2) t =
      match findTopic subs t with
      | some cbs => some cbs
      | none => findTopic subs2 t := by
  induction subs with
  | nil => rfl
  | cons p rest ih =>
    by_cases hp : p.1 = t
    · rw [List.cons_append]
      simp only [findTopic, if_pos hp]
    · rw [List.cons_append]
      simp only [findTopic, if_neg hp]
      exact ih

theorem deliverList_fst_foldlM (run : κ → Envelope μ → σ → Except ε σ)
    (cbs : List κ) (env : Envelope μ) (s : σ) :
    (deliverList run cbs env s).1 = List.foldlM (fun s0 c => run c env s0) s cbs := by
  induction cbs generalizing s with
  | nil => rfl
  | cons c cs ih =>
    rw [List.foldlM_cons]
    cases h : run c env s with
    | error e =>
      simp only [deliverList, h]
      rfl
    | ok s1 =>
      simp only [deliverList, h]
      rw [ih s1]
      rfl

theorem deliverList_invoked_all (run : κ → Envelope μ → σ → Except ε σ)
    (cbs : List κ) (env : Envelope μ) (s : σ)
    (hok : ∀ c ∈ cbs, ∀ s0, ∃ s1, run c env s0 = Except.ok s1) :
    (deliverList run cbs env s).2 = cbs := by
  induction cbs generalizing s with
  | nil => rfl
  | cons c cs ih =>
    obtain ⟨s1, h1⟩ := hok c (by simp) s
    simp only [deliverList, h1]
    show c :: (deliverList run cs env s1).2 = c :: cs
    exact congrArg (fun l => c :: l)
      (ih s1 (fun c0 hc0 s0 => hok c0 (List.mem_cons_of_mem c hc0) s0))

theorem deliverList_error_split (run : κ → Envelope μ → σ → Except ε σ)
    (pre : List κ) (c : κ) (post : List κ) (env : Envelope μ) (s sk : σ) (e : ε)
    (hpre : List.foldlM (fun s0 c0 => run c0 env s0) s pre = Except.ok sk)
    (herr : run c env sk = Except.error e) :
    deliverList run (pre ++ c :: post) env s = (Except.error e, pre ++ [c]) := by
  induction pre generalizing s with
  | nil =>
    simp only [List.foldlM_nil] at hpre
    cases hpre
    simp [deliverList, herr]
  | cons p ps ih =>
    simp only [List.foldlM_cons] at hpre
    cases h : run p env s with
    | error e0 =>
      rw [h] at hpre
      exact Except.noConfusion hpre
    | ok s1 =>
      rw [h] at hpre
      have hrest : List.foldlM (fun s0 c0 => run c0 env s0) s1 ps = Except.ok sk := hpre
      rw [List.cons_append]
      simp only [deliverList, h]
      rw [ih s1 hrest]
      simp

/-! ### Claim theorems -/

/-- C1: for a topic whose registered callback list is `cbs` (the callbacks
`subscribe` appended, in order), and callbacks that complete normally,
`publish` invokes exactly those callbacks, in registration order, and its
outcome is the sequential left-to-right composition of the callbacks —
each one runs to completion on the state left by the previous one before
the next is invoked. -/
theorem publish_invokes_subscribers_in_order
    (run : κ → Envelope μ → σ → Except ε σ) (bus : EventBus μ κ)
    (topic : String) (cbs : List κ) (m : μ) (src : String) (ts : Nat) (s : σ)
    (hsub : findTopic bus.subscribers topic = some cbs)
    (hok : ∀ c ∈ cbs, ∀ s0, ∃ s1, run c ⟨ts, topic, src, m⟩ s0 = Except.ok s1) :
    (publish run bus topic m src ts s).invoked = cbs ∧
    (publish run bus topic m src ts s).outcome =
      List.foldlM (fun s0 c => run c ⟨ts, topic, src, m⟩ s0) s cbs := by
  constructor
  · simp only [publish, hsub]
    exact deliverList_invoked_all run cbs _ s hok
  · simp only [publish, hsub]
    exact deliverList_fst_foldlM run cbs _ s

/-- Callback semantics used by concrete witnesses: callback `c` adds `c`
to a counter world state and never raises. -/
def wRun : Nat → Envelope Nat → Nat → Except Unit Nat := fun c _ s => Except.ok (s + c)

/-- A bus with callbacks 1 and 2 registered on topic `"t"`, in that order. -/
def wBus : EventBus Nat Nat := ⟨[("t", [1, 2])], []⟩

theorem publish_invokes_subscribers_in_order_witness :
    (publish wRun wBus "t" 0 "src" 0 0).invoked = [1, 2] :=
  (publish_invokes_subscribers_in_order wRun wBus "t" [1, 2] 0 "src" 0 0
    (by decide) (fun c _ s0 => ⟨s0 + c, rfl⟩)).1

/-- C2: a `publish` on a topic with no registry entry appends exactly one
envelope — carrying that topic, source and payload — to the history, runs
no callback, leaves the world state untouched, and returns the constructed
envelope. -/
theorem publish_no_subscribers
    (run : κ → Envelope μ → σ → Except ε σ) (bus : EventBus μ κ)
    (topic : String) (m : μ) (src : String) (ts : Nat) (s : σ)
    (hsub : findTopic bus.subscribers topic = none) :
    publish run bus topic m src ts s =
      ⟨{ bus with message_history := bus.message_history ++ [⟨ts, topic, src, m⟩] },
        Except.ok s, [], ⟨ts, topic, src, m⟩⟩ := by
  simp [publish, hsub]

theorem publish_no_subscribers_witness :
    publish wRun ⟨[], []⟩ "t" 0 "src" 0 0 =
      ⟨⟨[], [⟨0, "t", "src", 0⟩]⟩, Except.ok 0, [], ⟨0, "t", "src", 0⟩⟩ :=
  publish_no_subscribers wRun ⟨[], []⟩ "t" 0 "src" 0 0 rfl

/-- C3: the dispatch wrapper invokes `process_message` on an envelope
exactly when the envelope's source differs from the agent's own identifier;
on a self-sourced envelope it invokes nothing and returns with the state
untouched. -/
theorem handle_message_self_filter
    (agent_id : String) (pm : Envelope μ → σ → Except ε σ)
    (oe : ε → Envelope μ → σ → Except ε σ) (msg : Envelope μ) (s : σ) :
    (DispatchEvent.processMsg msg ∈ (handle_message agent_id pm oe msg s).2 ↔
      msg.source ≠ agent_id) ∧
    (msg.source = agent_id → handle_message agent_id pm oe msg s = (Except.ok s, [])) := by
  refine ⟨⟨fun hmem heq => ?_, fun hne => ?_⟩, fun heq => ?_⟩
  · rw [handle_message, if_pos heq] at hmem
    simp at hmem
  · rw [handle_message, if_neg hne]
    cases hpm : pm msg s <;> simp
  · rw [handle_message, if_pos heq]

theorem handle_message_self_filter_witness :
    handle_message "a" (fun (_ : Envelope Nat) (s : Nat) => (Except.ok s : Except Unit Nat))
      (fun _ _ s => Except.ok s) ⟨0, "t", "a", 0⟩ 0 = (Except.ok 0, []) :=
  (handle_message_self_filter "a" (fun _ s => Except.ok s)
    (fun _ _ s => Except.ok s) ⟨0, "t", "a", 0⟩ 0).2 rfl

/-- C4: when `process_message` raises on a foreign envelope, the wrapper
catches the exception, invokes `on_error` with that exception and envelope,
and returns normally (with `on_error`'s result); and a callback that
returns normally never blocks the delivery loop — the loop proceeds to the
remaining subscribers of the same publish call. -/
theorem handle_message_error_caught
    (agent_id : String) (pm : Envelope μ → σ → Except ε σ)
    (oe : ε → Envelope μ → σ → Except ε σ) (msg : Envelope μ) (s s1 : σ) (e : ε)
    (hsrc : msg.source ≠ agent_id)
    (hpm : pm msg s = Except.error e)
    (hoe : oe e msg s = Except.ok s1) :
    handle_message agent_id pm oe msg s =
      (Except.ok s1, [DispatchEvent.processMsg msg, DispatchEvent.errorHook e msg]) ∧
    ∀ (run : κ → Envelope μ → σ → Except ε σ) (c : κ) (cs : List κ),
      run c msg s = Except.ok s1 →
      (deliverList run (c :: cs) msg s).2 = c :: (deliverList run cs msg s1).2 := by
  constructor
  · rw [handle_message, if_neg hsrc, hpm]
    show (oe e msg s, [DispatchEvent.processMsg msg, DispatchEvent.errorHook e msg]) = _
    rw [hoe]
  · intro run c cs hc
    simp only [deliverList, hc]

theorem handle_message_error_caught_witness :
    handle_message "a" (fun (_ : Envelope Nat) (_ : Nat) => (Except.error () : Except Unit Nat))
      (fun _ _ s => Except.ok s) ⟨0, "t", "b", 0⟩ 5 =
      (Except.ok 5, [DispatchEvent.processMsg ⟨0, "t", "b", 0⟩,
        DispatchEvent.errorHook () ⟨0, "t", "b", 0⟩]) :=
  (@handle_message_error_caught Nat Unit Unit Nat "a" (fun _ _ => Except.error ())
    (fun _ _ s => Except.ok s) ⟨0, "t", "b", 0⟩ 5 5 () (by decide) rfl rfl).1

/-! ### `get_history` -/

theorem pySliceFrom_sublist (start : Int) (l : List α) :
    (pySliceFrom start l).Sublist l := by
  unfold pySliceFrom
  split <;> exact List.drop_sublist _ _

theorem pySliceFrom_neg_length_le (limit : Int) (h : 1 ≤ limit) (l : List α) :
    ((pySliceFrom (-limit) l).length : Int) ≤ limit := by
  unfold pySliceFrom
  rw [if_pos (by omega : (-limit : Int) < 0), List.length_drop]
  omega

/-- A bus whose history holds a single envelope on topic `"x"`; used as the
concrete refutation input for the `get_history` claims. -/
def cBus : EventBus Unit Unit := ⟨[], [⟨0, "x", "s", ()⟩]⟩

/-- C5 (amended): for every positive limit `N`, `get_history` returns at
most `N` envelopes, and they appear in original publish order (the result
is a subsequence of the history log). For `N ≤ 0` the Python slice
`history[-limit:]` does not truncate (see the counterexample). -/
theorem get_history_limit_order (bus : EventBus μ κ) (topic : Option String)
    (limit : Int) (h : 1 ≤ limit) :
    ((bus.get_history topic limit).length : Int) ≤ limit ∧
    (bus.get_history topic limit).Sublist bus.message_history := by
  cases topic with
  | none =>
    exact ⟨pySliceFrom_neg_length_le limit h _, pySliceFrom_sublist _ _⟩
  | some t =>
    by_cases ht : t = ""
    · simp only [EventBus.get_history, if_pos ht]
      exact ⟨pySliceFrom_neg_length_le limit h _, pySliceFrom_sublist _ _⟩
    · simp only [EventBus.get_history, if_neg ht]
      exact ⟨pySliceFrom_neg_length_le limit h _,
        (pySliceFrom_sublist _ _).trans (List.filter_sublist _)⟩

theorem get_history_limit_order_witness :
    ((cBus.get_history none 1).length : Int) ≤ 1 ∧
    (cBus.get_history none 1).Sublist cBus.message_history :=
  get_history_limit_order cBus none 1 (by decide)

/-- C5 counterexample: at `limit = 0` the slice `history[-0:]` is the whole
history, so `get_history` on a one-entry history returns one envelope,
violating "at most N" at `N = 0`. -/
theorem get_history_limit_zero_cex :
    ¬ (((cBus.get_history none 0).length : Int) ≤ 0) := by decide

/-- C6 (amended): for every non-empty topic string `t`, every envelope
returned by `get_history(topic=t)` carries topic `t`. (The empty string is
falsy in Python, so `if topic:` skips the filter for it — see the
counterexample.) -/
theorem get_history_topic_filtered (bus : EventBus μ κ) (t : String) (limit : Int)
    (ht : t ≠ "") :
    ∀ env ∈ bus.get_history (some t) limit, env.topic = t := by
  intro env henv
  have hsub : (bus.get_history (some t) limit).Sublist
      (bus.message_history.filter (fun m => m.topic == t)) := by
    simp only [EventBus.get_history, if_neg ht]
    exact pySliceFrom_sublist _ _
  have hmem : env ∈ bus.message_history.filter (fun m => m.topic == t) :=
    hsub.subset henv
  simpa using List.of_mem_filter hmem

theorem get_history_topic_filtered_witness :
    (⟨0, "x", "s", ()⟩ : Envelope Unit).topic = "x" :=
  get_history_topic_filtered cBus "x" 10 (by decide) ⟨0, "x", "s", ()⟩ (by decide)

/-- C6 counterexample: with the empty string as the topic filter the code
skips filtering entirely, so a history entry on topic `"x"` is returned by
`get_history(topic="")` even though its topic is not `""`. -/
theorem get_history_empty_topic_cex :
    ¬ (∀ env ∈ cBus.get_history (some "") 10, env.topic = "") := by decide

/-! ### Lifecycle (C7) -/

/-- C7: starting a non-running agent runs the `setup_subscriptions` and
`on_start` hooks once, in that order; a second `start` right after is a
no-op that runs no hook and leaves every part of the state unchanged; and
`stop` on an agent never started runs no hook and changes nothing. The two
hook hypotheses say the hooks do not flip the running flag — true of every
agent in the repository, whose hooks only subscribe, publish and log. -/
theorem start_twice_stop_unstarted
    (setup on_start on_stop : AgentRecord × σ → AgentRecord × σ)
    (a : AgentRecord) (w : σ) (now now2 : Nat)
    (hsetup : ∀ p, ((setup p).1).is_running = p.1.is_running)
    (hstart : ∀ p, ((on_start p).1).is_running = p.1.is_running)
    (hrun : a.is_running = false) :
    (start setup on_start a w now).2 = [LifeEvent.setupSubscriptions, LifeEvent.onStart] ∧
    start setup on_start (start setup on_start a w now).1.1
        (start setup on_start a w now).1.2 now2 =
      ((start setup on_start a w now).1, []) ∧
    stop on_stop a w = ((a, w), []) := by
  have h1 : start setup on_start a w now =
      (on_start (setup ({ a with is_running := true, start_time := some now }, w)),
        [LifeEvent.setupSubscriptions, LifeEvent.onStart]) := by
    rw [start, if_neg (by simp [hrun])]
  have h2 : (start setup on_start a w now).1.1.is_running = true := by
    rw [h1]
    show (on_start (setup _)).1.is_running = true
    rw [hstart, hsetup]
  have hsecond : ∀ (b : AgentRecord) (w2 : σ), b.is_running = true →
      start setup on_start b w2 now2 = ((b, w2), []) := by
    intro b w2 hb
    rw [start, if_pos hb]
  refine ⟨by rw [h1], ?_, by rw [stop, if_neg (by simp [hrun])]⟩
  exact hsecond _ _ h2

theorem start_twice_stop_unstarted_witness :
    (start (fun p => p) (fun p => p) (⟨"a", false, [], none⟩ : AgentRecord) (0 : Nat) 1).2 =
      [LifeEvent.setupSubscriptions, LifeEvent.onStart] :=
  (start_twice_stop_unstarted (fun p => p) (fun p => p) (fun p => p)
    ⟨"a", false, [], none⟩ 0 1 2 (fun _ => rfl) (fun _ => rfl) rfl).1

/-! ### Factory (C8) -/

/-- An entry of a team configuration that `create_agent_team` accepts: its
`type` field is present, non-empty and registered. -/
def entryOk (registry : List String) (q : String × AgentConfig) : Prop :=
  ∃ t, getType q.2 = some t ∧ t ∈ registry

/-- C8: walking a team configuration whose earlier entries are all valid,
`create_agent_team` aborts with the unknown-type error (naming the type)
at an entry whose type is unregistered, and with the missing-type error
(naming the agent) at an entry without a usable `type` field; in both
cases the result is an error, never a mapping. -/
theorem create_agent_team_config_errors (registry : List String)
    (pre : List (String × AgentConfig)) (name : String) (config : AgentConfig)
    (rest : List (String × AgentConfig))
    (hpre : ∀ q ∈ pre, entryOk registry q) :
    (∀ t, getType config = some t → t ∉ registry →
      create_agent_team registry (pre ++ (name, config) :: rest) =
        Except.error (FactoryError.unknownType t registry)) ∧
    (getType config = none →
      create_agent_team registry (pre ++ (name, config) :: rest) =
        Except.error (FactoryError.missingType name)) := by
  induction pre with
  | nil =>
    constructor
    · intro t ht hnot
      simp only [List.nil_append, create_agent_team, ht, create_agent, if_neg hnot]
    · intro hnone
      simp only [List.nil_append, create_agent_team, hnone]
  | cons q qs ih =>
    obtain ⟨qname, qconfig⟩ := q
    obtain ⟨t0, ht0, hmem⟩ := hpre (qname, qconfig) (by simp)
    have ihq := ih (fun q2 hq2 => hpre q2 (List.mem_cons_of_mem _ hq2))
    have hstep : ∀ res, create_agent_team registry (qs ++ (name, config) :: rest) =
        Except.error res →
        create_agent_team registry ((qname, qconfig) :: (qs ++ (name, config) :: rest)) =
          Except.error res := by
      intro res hres
      simp only [create_agent_team, ht0, create_agent, if_pos hmem, hres]
    refine ⟨fun t ht hnot => ?_, fun hnone => ?_⟩
    · rw [List.cons_append]
      exact hstep _ (ihq.1 t ht hnot)
    · rw [List.cons_append]
      exact hstep _ (ihq.2 hnone)

theorem create_agent_team_config_errors_witness :
    create_agent_team coreRegistry [("a", ⟨some "unregistered_type", none⟩)] =
      Except.error (FactoryError.unknownType "unregistered_type" coreRegistry) ∧
    create_agent_team coreRegistry [("a", ⟨none, none⟩)] =
      Except.error (FactoryError.missingType "a") :=
  ⟨(create_agent_team_config_errors coreRegistry [] "a" ⟨some "unregistered_type", none⟩ []
      (by simp)).1 "unregistered_type" (by decide) (by decide),
    (create_agent_team_config_errors coreRegistry [] "a" ⟨none, none⟩ []
      (by simp)).2 rfl⟩

/-! ### Monotonicity (C9) and exception propagation (C10) -/

/-- C9: the bus's shared state only grows. `subscribe` appends the callback
to exactly its topic's list, leaving every other topic and the history
untouched; `publish` leaves the registry untouched and appends exactly one
envelope to the history. Neither removes nor reorders anything, and no
unsubscribe operation exists on `EventBus`. -/
theorem bus_monotonic (bus : EventBus μ κ) (topic t : String) (cb : κ)
    (run : κ → Envelope μ → σ → Except ε σ) (m : μ) (src : String) (ts : Nat) (s : σ) :
    subsList (bus.subscribe topic cb).1 t =
      (if t = topic then subsList bus topic ++ [cb] else subsList bus t) ∧
    (bus.subscribe topic cb).1.message_history = bus.message_history ∧
    (publish run bus topic m src ts s).bus.subscribers = bus.subscribers ∧
    (publish run bus topic m src ts s).bus.message_history =
      bus.message_history ++ [⟨ts, topic, src, m⟩] := by
  refine ⟨?_, ?_, ?_, ?_⟩
  · cases hf : findTopic bus.subscribers topic with
    | none =>
      simp only [EventBus.subscribe, hf]
      by_cases ht : t = topic
      · subst ht
        rw [if_pos rfl]
        simp [subsList, findTopic_append, hf, findTopic]
      · rw [if_neg ht]
        simp only [subsList, findTopic_append]
        cases hg : findTopic bus.subscribers t with
        | none =>
          show (findTopic [(topic, [cb])] t).getD [] = _
          simp only [findTopic, if_neg (Ne.symm ht)]
        | some l => simp
    | some cbs =>
      simp only [EventBus.subscribe, hf]
      by_cases ht : t = topic
      · subst ht
        rw [if_pos rfl]
        simp [subsList, findTopic_updateTopic_eq bus.subscribers t (cbs ++ [cb]) cbs hf, hf]
      · rw [if_neg ht]
        simp only [subsList, findTopic_updateTopic_ne bus.subscribers topic t (cbs ++ [cb]) ht]
  · cases hf : findTopic bus.subscribers topic <;> simp [EventBus.subscribe, hf]
  · cases hf : findTopic bus.subscribers topic <;> simp [publish, hf]
  · cases hf : findTopic bus.subscribers topic <;> simp [publish, hf]

/-- C10: when the callbacks before position k complete normally and the
k-th callback raises, the envelope was appended to the history before any
delivery and remains there, the exception escapes `publish` (the bus
catches nothing), and the callbacks after the k-th are not invoked. -/
theorem publish_exception_aborts_delivery
    (run : κ → Envelope μ → σ → Except ε σ) (bus : EventBus μ κ)
    (topic : String) (m : μ) (src : String) (ts : Nat) (s sk : σ)
    (pre : List κ) (c : κ) (post : List κ) (e : ε)
    (hsub : findTopic bus.subscribers topic = some (pre ++ c :: post))
    (hpre : List.foldlM (fun s0 c0 => run c0 ⟨ts, topic, src, m⟩ s0) s pre = Except.ok sk)
    (herr : run c ⟨ts, topic, src, m⟩ sk = Except.error e) :
    (publish run bus topic m src ts s).bus.message_history =
      bus.message_history ++ [⟨ts, topic, src, m⟩] ∧
    (publish run bus topic m src ts s).outcome = Except.error e ∧
    (publish run bus topic m src ts s).invoked = pre ++ [c] := by
  have hd := deliverList_error_split run pre c post ⟨ts, topic, src, m⟩ s sk e hpre herr
  refine ⟨?_, ?_, ?_⟩ <;> simp [publish, hsub, hd]

/-- Callback semantics where callback 1 raises and every other callback is
a no-op; used by the C10 witness. -/
def wErrRun : Nat → Envelope Nat → Nat → Except Unit Nat :=
  fun c _ s => if c = 1 then Except.error () else Except.ok s

/-- A bus with callbacks 0, 1, 2 registered on topic `"t"`, in order. -/
def wBus3 : EventBus Nat Nat := ⟨[("t", [0, 1, 2])], []⟩

theorem publish_exception_aborts_delivery_witness :
    (publish wErrRun wBus3 "t" 0 "src" 0 0).invoked = [0, 1] :=
  (publish_exception_aborts_delivery wErrRun wBus3 "t" 0 "src" 0 0 0
    [0] 1 [2] () (by decide) rfl rfl).2.2

end AgenticCore
